import Mathlib

/-!
Verification of the ioBroker.bluetooth core against its specification.

This file shallowly embeds the parts of `src/lib/hfpProfile.js` and
`src/lib/bluezManager.js` that the claims concern: the HFP indicator and
call-state machinery, the per-connection AT command queue, connection
teardown, discovery control, the services-resolved wait, the MAC/path
conversions, the call-control entry points, and the central D-Bus signal
dispatcher.  JavaScript state mutation becomes explicit state passing;
emitted events become explicit event lists; promise rejection becomes an
explicit error component.
-/

namespace IobBluetooth

/-! ## HFP indicator state (hfpProfile.js)

An HFP connection keeps an ordered indicator-name table `indicatorMap`
(built from the +CIND definition response) and a value map `indicators`
(a JavaScript object, modelled as an insertion-ordered association list).
-/

/-- Association-list update with JavaScript object-assignment semantics:
replace the value in place if the key is present, otherwise append. -/
def setAssoc {α : Type} (l : List (String × α)) (k : String) (v : α) : List (String × α) :=
  match l with
  | [] => [(k, v)]
  | (k0, v0) :: rest =>
      if k0 = k then (k0, v) :: rest else (k0, v0) :: setAssoc rest k v

/-- Lookup in the indicator value map; a missing key is JavaScript
`undefined`, modelled as `none`. -/
def getAssoc {α : Type} (l : List (String × α)) (k : String) : Option α :=
  List.lookup k l

/-- State of one HFP connection as far as indicators are concerned:
the ordered indicator-name table and the current indicator value map. -/
structure IndState where
  indicatorMap : List String
  indicators : List (String × Int)
deriving Repr, DecidableEq

/-- Events emitted by the HFP profile engine that the indicator paths
can produce (`indicator`, `batteryLevel`, `signalStrength`, `callState`). -/
inductive HfpEvent where
  | indicator (name : String) (value : Int)
  | batteryLevel (value : Int)
  | signalStrength (value : Int)
  | callState (state : String) (number : String) (name : String)
deriving Repr, DecidableEq

/-- Embedding of `_deriveCallState` (hfpProfile.js): each of the three
call-related indicators defaults to 0 when absent, and the label is chosen
by the fixed if/else-if precedence chain of the source. -/
def deriveCallState (indicators : List (String × Int)) : String :=
  let call := (getAssoc indicators "call").getD 0
  let callsetup := (getAssoc indicators "callsetup").getD 0
  let callheld := (getAssoc indicators "callheld").getD 0
  if call = 1 ∧ callsetup = 0 then
    (if callheld = 2 then "held" else "active")
  else if callsetup = 1 then "incoming"
  else if callsetup = 2 then "dialing"
  else if callsetup = 3 then "alerting"
  else if callheld = 2 then "held"
  else "idle"

/-- The call-state table exactly as the specification words it:
call=1 and callsetup=0 gives held if callheld=2 else active; else
callsetup=1 gives incoming; callsetup=2 gives dialing; callsetup=3 gives
alerting; else callheld=2 gives held; else idle. -/
def specCallStateTable (call callsetup callheld : Int) : String :=
  if call = 1 ∧ callsetup = 0 then
    (if callheld = 2 then "held" else "active")
  else if callsetup = 1 then "incoming"
  else if callsetup = 2 then "dialing"
  else if callsetup = 3 then "alerting"
  else if callheld = 2 then "held"
  else "idle"

/-- C2: for every combination of indicator values call in 0..1,
callsetup in 0..3, callheld in 0..2 stored in the indicator map, the
derived call-state label equals the fixed-precedence table of the
specification. -/
theorem deriveCallState_eq_specTable (call callsetup callheld : Int)
    (hcall : 0 ≤ call ∧ call ≤ 1) (hsetup : 0 ≤ callsetup ∧ callsetup ≤ 3)
    (hheld : 0 ≤ callheld ∧ callheld ≤ 2) :
    deriveCallState [("call", call), ("callsetup", callsetup), ("callheld", callheld)]
      = specCallStateTable call callsetup callheld := by
  simp [deriveCallState, specCallStateTable, getAssoc, List.lookup]

/-- Witness for C2 at the concrete combination (1, 0, 2), which the table
maps to held. -/
theorem deriveCallState_eq_specTable_witness :
    deriveCallState [("call", 1), ("callsetup", 0), ("callheld", 2)]
        = specCallStateTable 1 0 2 ∧
      specCallStateTable 1 0 2 = "held" := by
  refine ⟨deriveCallState_eq_specTable 1 0 2 ?_ ?_ ?_, ?_⟩ <;> norm_num [specCallStateTable]

/-! ## Indicator parsing and processing (hfpProfile.js) -/

/-- ASCII lower-casing of one character, as JavaScript toLowerCase acts on
the ASCII range used by indicator names. -/
def toLowerChar (c : Char) : Char :=
  if 65 ≤ c.toNat ∧ c.toNat ≤ 90 then Char.ofNat (c.toNat + 32) else c

/-- Mode of the indicator-name scanner: outside any candidate match, just
past an opening parenthesis, or inside a double-quoted name with the
characters collected so far (in reverse). -/
inductive ScanMode where
  | outside
  | paren
  | name (acc : List Char)

/-- Scanner for the global regex match of `_parseIndicatorDefinitions`,
which repeatedly finds an opening parenthesis followed by a double-quoted
non-empty capture of non-quote characters.  The leftmost-match search is
implemented as a single left-to-right pass: an opening parenthesis arms a
candidate, a following double quote starts collecting the capture, the
closing quote emits a non-empty capture and resumes after it, and any
failed candidate resumes the search at the following character, which is
where the regex engine would retry. -/
def scanNames : ScanMode → List Char → List (List Char)
  | _, [] => []
  | ScanMode.outside, c :: rest =>
      if c = '(' then scanNames ScanMode.paren rest
      else scanNames ScanMode.outside rest
  | ScanMode.paren, c :: rest =>
      if c = '"' then scanNames (ScanMode.name []) rest
      else if c = '(' then scanNames ScanMode.paren rest
      else scanNames ScanMode.outside rest
  | ScanMode.name acc, c :: rest =>
      if c = '"' then
        (if acc = [] then scanNames ScanMode.outside rest
         else acc.reverse :: scanNames ScanMode.outside rest)
      else scanNames (ScanMode.name (c :: acc)) rest

/-- All indicator names captured from a +CIND definition payload. -/
def scanIndicatorNames (l : List Char) : List (List Char) :=
  scanNames ScanMode.outside l

/-- Embedding of `_parseIndicatorDefinitions` (hfpProfile.js): extract the
quoted indicator names from the +CIND definition payload, lower-case them,
and replace the connection's ordered indicator-name table with them. -/
def parseIndicatorDefinitions (str : List Char) (st : IndState) : IndState :=
  let indicators := (scanIndicatorNames str).map (fun nm => String.mk (nm.map toLowerChar))
  { st with indicatorMap := indicators }

/-- Embedding of `_emitIndicator` (hfpProfile.js): always emit an
`indicator` event, plus `batteryLevel` for battchg and `signalStrength`
for signal. -/
def emitIndicator (name : String) (value : Int) : List HfpEvent :=
  HfpEvent.indicator name value ::
    (if name = "battchg" then [HfpEvent.batteryLevel value]
     else if name = "signal" then [HfpEvent.signalStrength value]
     else [])

/-- One iteration step of the loop in `_processIndicatorValues`: the loop
walks positions present in both the value list and the name table (the
zip), assigns each value into the indicator map, emits the indicator
events, and remembers whether a call-related indicator changed value. -/
def processIndicatorValuesLoop :
    List (String × Int) → IndState → Bool → IndState × List HfpEvent × Bool
  | [], st, changed => (st, [], changed)
  | (name, v) :: rest, st, changed =>
      let prev := getAssoc st.indicators name
      let st1 : IndState := { st with indicators := setAssoc st.indicators name v }
      let evs1 := emitIndicator name v
      let changed1 := changed ||
        (decide ((name = "call" ∨ name = "callsetup" ∨ name = "callheld") ∧ prev ≠ some v))
      let (st2, evs2, changed2) := processIndicatorValuesLoop rest st1 changed1
      (st2, evs1 ++ evs2, changed2)

/-- Embedding of `_processIndicatorValues` (hfpProfile.js): bulk-assign the
+CIND value list against the ordered name table, then re-derive the call
state exactly when one of the three call-related indicators changed. -/
def processIndicatorValues (values : List Int) (st : IndState) : IndState × List HfpEvent :=
  let (st1, evs, callChanged) :=
    processIndicatorValuesLoop (st.indicatorMap.zip values) st false
  if callChanged then
    (st1, evs ++ [HfpEvent.callState (deriveCallState st1.indicators) "" ""])
  else
    (st1, evs)

/-- JavaScript indexing `arr[i]` for a possibly negative integer index:
out-of-range and negative indices yield undefined, modelled as none. -/
def jsIndex {α : Type} (l : List α) (i : Int) : Option α :=
  if 0 ≤ i then l.get? i.toNat else none

/-- Embedding of `_processIndicatorEvent` (hfpProfile.js): a +CIEV
notification carries a 1-based index into the indicator-name table; if the
index does not map to a name (including any empty name, which JavaScript
treats as falsy) the notification is dropped, otherwise the single value
is assigned, indicator events are emitted, and a call-related name
triggers call-state re-derivation. -/
def processIndicatorEvent (idx v : Int) (st : IndState) : IndState × List HfpEvent :=
  match jsIndex st.indicatorMap (idx - 1) with
  | none => (st, [])
  | some name =>
      if name = "" then (st, [])
      else
        let st1 : IndState := { st with indicators := setAssoc st.indicators name v }
        let evs := emitIndicator name v
        if name = "call" ∨ name = "callsetup" ∨ name = "callheld" then
          (st1, evs ++ [HfpEvent.callState (deriveCallState st1.indicators) "" ""])
        else
          (st1, evs)

/-- C8: a +CIEV notification whose 1-based index does not map to a name in
the indicator-name table (in particular any notification arriving while
the table is still empty) leaves the indicator value map unchanged and
emits no event; the connection keeps processing because the handler
returns normally. -/
theorem processIndicatorEvent_unknown_index (st : IndState) (idx v : Int)
    (h : jsIndex st.indicatorMap (idx - 1) = none) :
    processIndicatorEvent idx v st = (st, []) := by
  simp [processIndicatorEvent, h]

/-- Witness for C8: a +CIEV with index 1 arriving before the indicator
table has been populated is dropped without touching the state. -/
theorem processIndicatorEvent_unknown_index_witness :
    jsIndex (IndState.mk [] []).indicatorMap (1 - 1) = none ∧
      processIndicatorEvent 1 5 (IndState.mk [] []) = (IndState.mk [] [], []) := by
  refine ⟨?_, processIndicatorEvent_unknown_index (IndState.mk [] []) 1 5 ?_⟩ <;>
    simp [jsIndex]

/-- The indicator-definition payload of claim C7. -/
def c7DefinitionPayload : String :=
  "(\"call\",(0,1)),(\"callsetup\",(0-3)),(\"battchg\",(0-5))"

/-- C7: feeding the indicator-definition line for call, callsetup and
battchg and then the value line 0,0,3 yields the ordered name table
[call, callsetup, battchg], the value map assigning call 0, callsetup 0
and battchg 3, and exactly one batteryLevel event, carrying 3. -/
theorem indicator_definition_then_values :
    (parseIndicatorDefinitions c7DefinitionPayload.data (IndState.mk [] [])).indicatorMap
        = ["call", "callsetup", "battchg"] ∧
      (processIndicatorValues [0, 0, 3]
          (parseIndicatorDefinitions c7DefinitionPayload.data (IndState.mk [] []))).1.indicators
        = [("call", 0), ("callsetup", 0), ("battchg", 3)] ∧
      ((processIndicatorValues [0, 0, 3]
            (parseIndicatorDefinitions c7DefinitionPayload.data (IndState.mk [] []))).2.filter
          (fun e => match e with
            | HfpEvent.batteryLevel _ => true
            | _ => false))
        = [HfpEvent.batteryLevel 3] := by
  decide

/-! ## AT command queue discipline (hfpProfile.js)

State machine extracted from `_sendCommand`, `_sendNextCommand`, the
per-command timeout closure, and the terminal-response branch of
`_processLine`.  Commands are identified by the order in which they were
enqueued (id 0, 1, 2, ...); every source of commands (SLC steps,
keepalive polls, caller actions) goes through `_sendCommand` and is an
enqueue event here.  The state records the FIFO `queue` (`_cmdQueue`),
the `inFlight` flag (`_cmdInFlight`), the command captured by the pending
resolve/reject closures (`_pendingResolve`, none when nulled), the log of
commands written to the wire, and the log of first promise settlements
(resolve or reject) in order.
-/

/-- State of one connection's AT command queue. -/
structure QState where
  queue : List Nat
  inFlight : Bool
  pending : Option Nat
  nextId : Nat
  sent : List Nat
  completed : List Nat
deriving Repr, DecidableEq

/-- Events that can happen to the queue of one connection: an enqueue from
any source (a SLC step, a keepalive tick or a caller action), a terminal
response line (OK, ERROR or +CME ERROR), the firing of the armed
per-command timeout, and the run of a deferred `_sendNextCommand`
scheduled with setImmediate. -/
inductive QEv where
  | enqueue
  | terminal
  | timeoutFire
  | kick
deriving Repr, DecidableEq

/-- Settling a command's promise: JavaScript promises settle at most once,
so a second resolve or reject of the same command is a no-op. -/
def settle (s : QState) (a : Nat) : QState :=
  if a ∈ s.completed then s else { s with completed := s.completed ++ [a] }

/-- Embedding of `_sendNextCommand`: nothing happens on an empty queue or
while a command is in flight; otherwise the head is written to the wire,
the in-flight flag is set and the pending closures capture the head. -/
def sendNext (s : QState) : QState :=
  match s.queue with
  | [] => s
  | c :: _ =>
      if s.inFlight then s
      else { s with inFlight := true, pending := some c, sent := s.sent ++ [c] }

/-- One step of the queue state machine.

An enqueue appends a fresh command and kicks `_sendNextCommand` exactly
when the queue length just became 1, as `_sendCommand` does.  A terminal
line invokes the pending closure when one is set: it pops the queue head,
clears the in-flight flag, settles the captured command, schedules the
next send for a later tick, and the line handler then nulls the pending
closure; with no pending closure the line is ignored.  The timeout fires
only while a command is in flight (its timer is cleared whenever the
pending closure runs): it pops the head, clears the in-flight flag,
rejects the captured command and synchronously attempts the next send,
leaving the pending closure in place exactly as the source does.  A kick
runs `_sendNextCommand`. -/
def stepQ (s : QState) : QEv → QState
  | QEv.enqueue =>
      let s1 : QState := { s with queue := s.queue ++ [s.nextId], nextId := s.nextId + 1 }
      if s1.queue.length = 1 then sendNext s1 else s1
  | QEv.terminal =>
      match s.pending with
      | none => s
      | some a =>
          let s1 : QState := { s with queue := s.queue.drop 1, inFlight := false }
          { settle s1 a with pending := none }
  | QEv.timeoutFire =>
      if s.inFlight then
        match s.pending with
        | none => s
        | some a =>
            let s1 : QState := { s with queue := s.queue.drop 1, inFlight := false }
            sendNext (settle s1 a)
      else s
  | QEv.kick => sendNext s

/-- The initial queue state of a fresh connection. -/
def initQ : QState :=
  { queue := [], inFlight := false, pending := none, nextId := 0, sent := [], completed := [] }

/-- Run the queue machine over a sequence of events. -/
def runQ (evs : List QEv) : QState :=
  evs.foldl stepQ initQ

/-- Invariant of the queue machine: settlements happen in enqueue order,
the queue holds exactly the not-yet-settled commands in enqueue order,
wire writes happen in enqueue order with at most the head outstanding,
the in-flight command is the captured head, and a stale pending closure
(left by a timeout that emptied the queue) only captures an
already-settled command. -/
def InvQ (s : QState) : Prop :=
  s.completed = List.range s.completed.length ∧
  s.completed.length ≤ s.nextId ∧
  s.queue = List.range' s.completed.length (s.nextId - s.completed.length) ∧
  s.sent = List.range (s.completed.length + (if s.inFlight then 1 else 0)) ∧
  (s.inFlight = true → s.pending = some s.completed.length ∧ s.completed.length < s.nextId) ∧
  (s.inFlight = false → ∀ a, s.pending = some a → s.queue = [] ∧ a < s.completed.length)

theorem invQ_init : InvQ initQ := by
  simp [InvQ, initQ]

theorem range'_snoc (k n : ℕ) : List.range' k n ++ [k + n] = List.range' k (n + 1) := by
  rw [List.range'_concat]
  simp

theorem invQ_step (s : QState) (e : QEv) (h : InvQ s) : InvQ (stepQ s e) := by
  obtain ⟨Q, F, P, N, S, C⟩ := s
  obtain ⟨hcomp, hlen, hqueue, hsent, hfly, hidle⟩ := h
  simp only at hcomp hlen hqueue hsent hfly hidle
  obtain ⟨k, rfl⟩ : ∃ k, C = List.range k := ⟨C.length, hcomp⟩
  simp only [List.length_range] at hlen hqueue hsent hfly hidle
  subst hqueue
  rw [hsent]
  clear hsent hcomp
  cases e with
  | enqueue =>
      simp only [stepQ]
      by_cases hq : N - k = 0
      · -- queue was empty, so the enqueue kicks an immediate send
        have hnk : N = k := by omega
        subst hnk
        have hnofly : F = false := by
          cases hf : F with
          | true => exact absurd (hfly hf).2 (by omega)
          | false => rfl
        subst hnofly
        rw [if_pos (by simp [hq])]
        simp only [sendNext, hq, List.range'_zero, List.nil_append]
        rw [if_neg (by simp)]
        refine ⟨?_, ?_, ?_, ?_, ?_, ?_⟩
        · simp
        · simp
        · simp
        · simp [List.range_succ]
        · intro _
          exact ⟨by simp, by simp⟩
        · intro hfalse
          simp at hfalse
      · -- queue was non-empty: no kick fires
        rw [if_neg (by simp; omega)]
        refine ⟨?_, ?_, ?_, ?_, ?_, ?_⟩
        · simp
        · simp
          omega
        · have h1 : N + 1 - k = (N - k) + 1 := by omega
          have h2 : N = k + (N - k) := by omega
          simp only [List.length_range, h1]
          rw [← range'_snoc k (N - k), ← h2]
        · simp
        · intro hf
          refine ⟨by simpa using (hfly hf).1, ?_⟩
          have := (hfly hf).2
          simp
          omega
        · intro hf a hp
          have := (hidle hf a hp).1
          rw [List.range'_eq_nil] at this
          omega
  | terminal =>
      cases hp : P with
      | none =>
          simp only [stepQ]
          refine ⟨?_, ?_, ?_, ?_, ?_, ?_⟩
          · simp
          · simpa using hlen
          · simp
          · simp
          · intro hF
            have h1 := (hfly hF).1
            rw [hp] at h1
            simp at h1
          · intro hf a hpa
            simp at hpa
      | some a =>
          subst hp
          simp only [stepQ]
          cases hf : F with
          | true =>
              -- normal completion of the in-flight head
              subst hf
              obtain ⟨hpk, hkn⟩ := hfly rfl
              have ha : a = k := Option.some.inj hpk
              subst ha
              have hnotmem : a ∉ List.range a := by simp
              have hd : N - a = (N - (a + 1)) + 1 := by omega
              simp only [settle, if_neg hnotmem, hd, List.range'_succ, List.drop_succ_cons,
                List.drop_zero, ← List.range_succ]
              refine ⟨?_, ?_, ?_, ?_, ?_, ?_⟩
              · simp
              · simp
                omega
              · simp
              · simp
              · intro hx
                simp at hx
              · intro _ b hb
                simp at hb
          | false =>
              -- stale closure left by a timeout: the queue is empty and the
              -- captured command already settled, so this is a no-op pop
              subst hf
              obtain ⟨hq0, halt⟩ := hidle rfl a rfl
              have hmem : a ∈ List.range k := by simpa using halt
              rw [List.range'_eq_nil] at hq0
              simp only [settle, if_pos hmem, hq0, List.range'_zero, List.drop_nil]
              refine ⟨?_, ?_, ?_, ?_, ?_, ?_⟩
              · simp
              · simpa using hlen
              · simp [hq0]
              · simp
              · intro hx
                simp at hx
              · intro _ b hb
                simp at hb
  | timeoutFire =>
      simp only [stepQ]
      cases hf : F with
      | false =>
          subst hf
          rw [if_neg (by simp)]
          refine ⟨?_, ?_, ?_, ?_, ?_, ?_⟩
          · simp
          · simpa using hlen
          · simp
          · simp
          · intro hx
            simp at hx
          · intro _ a hpa
            have h1 := hidle rfl a (by simpa using hpa)
            exact ⟨by simpa using h1.1, by simpa using h1.2⟩
      | true =>
          subst hf
          rw [if_pos rfl]
          obtain ⟨hpk, hkn⟩ := hfly rfl
          cases hp : P with
          | none =>
              rw [hp] at hpk
              exact absurd hpk (by simp)
          | some a =>
              subst hp
              have ha : a = k := Option.some.inj hpk
              subst ha
              have hnotmem : a ∉ List.range a := by simp
              have hd : N - a = (N - (a + 1)) + 1 := by omega
              simp only [settle, if_neg hnotmem, hd, List.range'_succ, List.drop_succ_cons,
                List.drop_zero, ← List.range_succ]
              by_cases hq1 : N - (a + 1) = 0
              · -- the timeout emptied the queue: pending stays stale
                simp only [hq1, List.range'_zero, sendNext]
                refine ⟨?_, ?_, ?_, ?_, ?_, ?_⟩
                · simp
                · simp
                  omega
                · simp [hq1]
                · simp
                · intro hx
                  simp at hx
                · intro _ b hb
                  simp only at hb
                  injection hb with h2
                  subst h2
                  exact ⟨rfl, by simp⟩
              · -- the timeout handler immediately sends the next head
                have hd2 : N - (a + 1) = (N - (a + 2)) + 1 := by omega
                rw [hd2, List.range'_succ]
                simp only [sendNext]
                rw [if_neg (by simp)]
                refine ⟨?_, ?_, ?_, ?_, ?_, ?_⟩
                · simp
                · simp
                  omega
                · simp only [List.length_range, ← List.range'_succ, ← hd2]
                · simp [List.range_succ]
                · intro _
                  exact ⟨by simp, by simp; omega⟩
                · intro hfalse
                  simp at hfalse
  | kick =>
      simp only [stepQ, sendNext]
      by_cases hq : N - k = 0
      · simp only [hq, List.range'_zero]
        refine ⟨?_, ?_, ?_, ?_, ?_, ?_⟩
        · simp
        · simpa using hlen
        · simp [hq]
        · simp
        · intro hF
          exact ⟨by simpa using (hfly hF).1, by simpa using (hfly hF).2⟩
        · intro hF a hpa
          refine ⟨rfl, ?_⟩
          simpa using (hidle hF a (by simpa using hpa)).2
      · have hd : N - k = (N - (k + 1)) + 1 := by omega
        rw [hd, List.range'_succ]
        cases hf : F with
        | true =>
            subst hf
            rw [if_pos rfl]
            refine ⟨?_, ?_, ?_, ?_, ?_, ?_⟩
            · simp
            · simpa using hlen
            · simp [← List.range'_succ, ← hd]
            · simp
            · intro _
              exact ⟨by simpa using (hfly rfl).1, by simpa using (hfly rfl).2⟩
            · intro hfalse
              simp at hfalse
        | false =>
            subst hf
            rw [if_neg (by simp)]
            refine ⟨?_, ?_, ?_, ?_, ?_, ?_⟩
            · simp
            · simpa using hlen
            · simp [← List.range'_succ, ← hd]
            · simp [List.range_succ]
            · intro _
              exact ⟨by simp, by simp; omega⟩
            · intro hfalse
              simp at hfalse

theorem invQ_runQ (evs : List QEv) : InvQ (runQ evs) := by
  rw [runQ]
  induction evs using List.reverseRecOn with
  | nil => exact invQ_init
  | append_singleton evs e ih =>
      rw [List.foldl_append, List.foldl_cons, List.foldl_nil]
      exact invQ_step _ e ih

/-- C1: over every interleaving of enqueues (SLC steps, keepalive polls,
caller actions), terminal responses, timeouts and deferred sends on one
HFP connection, commands are written to the wire in enqueue order without
skips or repeats, their promises settle in enqueue order, every settled
command was sent, at most one sent command is ever unsettled (so at most
one command is in flight at any time and a new send only happens when
nothing is in flight), and the settled commands are exactly the ones
removed from the FIFO's front. -/
theorem hfp_command_queue_discipline (evs : List QEv) :
    (runQ evs).sent = List.range (runQ evs).sent.length ∧
      (runQ evs).completed = List.range (runQ evs).completed.length ∧
      (runQ evs).completed.length ≤ (runQ evs).sent.length ∧
      (runQ evs).sent.length ≤ (runQ evs).completed.length + 1 ∧
      ((runQ evs).inFlight = false → (runQ evs).sent = (runQ evs).completed) ∧
      (runQ evs).queue = List.range' (runQ evs).completed.length
        ((runQ evs).nextId - (runQ evs).completed.length) := by
  obtain ⟨hcomp, hlen, hqueue, hsent, hfly, hidle⟩ := invQ_runQ evs
  refine ⟨?_, hcomp, ?_, ?_, ?_, hqueue⟩
  · rw [hsent]; simp
  · rw [hsent]; simp
  · rw [hsent]; cases (runQ evs).inFlight <;> simp
  · intro hf; rw [hsent, hf, hcomp]; simp

/-! ## Connection teardown (hfpProfile.js)

Embedding of `_cleanup` and its three triggers: the socket error handler,
the socket close handler, and `_onRequestDisconnection`.  Each trigger
just calls `_cleanup` for the connection's MAC.
-/

/-- The parts of an HFP connection record that teardown touches: whether
the keepalive interval timer is armed and the ids of the still-queued
commands. -/
structure TearConn where
  keepaliveArmed : Bool
  cmdQueue : List Nat
deriving Repr, DecidableEq

/-- Observable teardown state for one MAC: the connection record (none
once removed from the map), whether the keepalive timer is still running,
the commands rejected with the connection-closed error, how many times the
channel was destroyed, and how many disconnected events were emitted. -/
structure TearState where
  conn : Option TearConn
  timerActive : Bool
  rejectedClosed : List Nat
  socketDestroyCount : Nat
  disconnectedCount : Nat
deriving Repr, DecidableEq

/-- Teardown state for a live connection before any teardown trigger. -/
def initTear (c : TearConn) : TearState :=
  { conn := some c, timerActive := c.keepaliveArmed, rejectedClosed := [],
    socketDestroyCount := 0, disconnectedCount := 0 }

/-- Embedding of `_cleanup` (hfpProfile.js): a missing connection record
is a no-op (the guard against double emission); otherwise the keepalive
timer is cleared, every queued command is rejected with the
connection-closed error, the socket is destroyed, the record is removed,
and one disconnected event is emitted. -/
def cleanup (s : TearState) : TearState :=
  match s.conn with
  | none => s
  | some c =>
      { conn := none,
        timerActive := false,
        rejectedClosed := s.rejectedClosed ++ c.cmdQueue,
        socketDestroyCount := s.socketDestroyCount + 1,
        disconnectedCount := s.disconnectedCount + 1 }

/-- The three teardown triggers; each handler ends in `_cleanup(mac)`. -/
inductive TearEv where
  | socketError
  | socketClose
  | requestDisconnection
deriving Repr, DecidableEq

/-- Every teardown trigger runs `_cleanup` for the connection. -/
def tearStep (s : TearState) (_ : TearEv) : TearState :=
  cleanup s

theorem cleanup_of_removed (s : TearState) (h : s.conn = none) : cleanup s = s := by
  simp [cleanup, h]

/-- C3: for a live HFP connection, any non-empty sequence of teardown
triggers (channel error, channel close, explicit disconnect request, in
any combination and order) clears the keepalive timer, rejects exactly the
still-queued commands with the connection-closed error, destroys the
channel exactly once, removes the connection record, and emits exactly one
disconnected event; in particular every trigger after the first is a
no-op. -/
theorem teardown_idempotent (c : TearConn) (evs : List TearEv) (hne : evs ≠ []) :
    List.foldl tearStep (initTear c) evs =
      { conn := none, timerActive := false, rejectedClosed := c.cmdQueue,
        socketDestroyCount := 1, disconnectedCount := 1 } := by
  obtain ⟨e, evs, rfl⟩ : ∃ e t, evs = e :: t := by
    cases evs with
    | nil => exact absurd rfl hne
    | cons e t => exact ⟨e, t, rfl⟩
  clear hne
  rw [List.foldl_cons]
  have h1 : tearStep (initTear c) e =
      { conn := none, timerActive := false, rejectedClosed := c.cmdQueue,
        socketDestroyCount := 1, disconnectedCount := 1 } := by
    simp [tearStep, cleanup, initTear]
  rw [h1]
  induction evs with
  | nil => simp
  | cons e2 t ih =>
      rw [List.foldl_cons, tearStep, cleanup_of_removed _ rfl]
      exact ih

/-- Witness for C3: a connection with an armed keepalive timer and two
queued commands, torn down by an error notification followed by a close
notification, ends removed with one disconnected emission. -/
theorem teardown_idempotent_witness :
    ([TearEv.socketError, TearEv.socketClose] ≠ ([] : List TearEv)) ∧
      List.foldl tearStep (initTear (TearConn.mk true [4, 5]))
          [TearEv.socketError, TearEv.socketClose] =
        { conn := none, timerActive := false, rejectedClosed := [4, 5],
          socketDestroyCount := 1, disconnectedCount := 1 } :=
  ⟨by decide,
   teardown_idempotent (TearConn.mk true [4, 5]) [TearEv.socketError, TearEv.socketClose]
     (by decide)⟩

/-! ## Discovery control (bluezManager.js) -/

/-- Possible outcomes of the underlying StartDiscovery call: success, the
in-progress error recognised by the source, or any other error. -/
inductive StartResp where
  | ok
  | errInProgress
  | errOther
deriving Repr, DecidableEq

/-- The manager state that `startDiscovery` consults and updates. -/
structure DiscState where
  discovering : Bool
  destroyed : Bool
deriving Repr, DecidableEq

/-- Result of one `startDiscovery` call: the new manager state, whether
the underlying StartDiscovery call was issued, and whether the call
rejected (threw). -/
structure DiscOutcome where
  state : DiscState
  issuedStart : Bool
  threw : Bool
deriving Repr, DecidableEq

/-- Embedding of `startDiscovery` (bluezManager.js): return immediately
when destroyed or already discovering; otherwise stop any stale session
and apply the discovery filter (failures tolerated, no state effect),
issue StartDiscovery, set the discovering flag on success, treat the
in-progress error as success, and rethrow anything else. -/
def startDiscovery (s : DiscState) (resp : StartResp) : DiscOutcome :=
  if s.destroyed then ⟨s, false, false⟩
  else if s.discovering then ⟨s, false, false⟩
  else
    match resp with
    | StartResp.ok => ⟨{ s with discovering := true }, true, false⟩
    | StartResp.errInProgress => ⟨{ s with discovering := true }, true, false⟩
    | StartResp.errOther => ⟨s, true, true⟩

/-- C5: startDiscovery is idempotent.  While the discovering flag is set
it returns immediately, issuing no underlying start and raising no error;
from a fresh manager two consecutive calls whose first underlying start
does not hard-fail issue the underlying start exactly once and the second
call does not error; and an in-progress error from the underlying start is
treated as success, setting the discovering flag without throwing. -/
theorem startDiscovery_idempotent :
    (∀ (s : DiscState) (r : StartResp), s.discovering = true →
        startDiscovery s r = ⟨s, false, false⟩) ∧
      (∀ (r1 r2 : StartResp), r1 ≠ StartResp.errOther →
        (startDiscovery (DiscState.mk false false) r1).issuedStart = true ∧
          (startDiscovery (startDiscovery (DiscState.mk false false) r1).state r2).issuedStart
              = false ∧
          (startDiscovery (startDiscovery (DiscState.mk false false) r1).state r2).threw
              = false) ∧
      (∀ s : DiscState, s.destroyed = false → s.discovering = false →
        startDiscovery s StartResp.errInProgress =
          ⟨{ s with discovering := true }, true, false⟩) := by
  refine ⟨?_, ?_, ?_⟩
  · intro s r hdisc
    cases hd : s.destroyed <;> simp [startDiscovery, hdisc, hd]
  · intro r1 r2 hr1
    cases r1 <;> simp_all [startDiscovery]
  · intro s hdest hdisc
    simp [startDiscovery, hdest, hdisc]

/-- Witness for C5: a manager already discovering ignores a second call; a
fresh manager whose start succeeds performs the start exactly once over
two calls; an in-progress error sets the flag. -/
theorem startDiscovery_idempotent_witness :
    startDiscovery (DiscState.mk true false) StartResp.ok =
        ⟨DiscState.mk true false, false, false⟩ ∧
      ((startDiscovery (DiscState.mk false false) StartResp.ok).issuedStart = true ∧
        (startDiscovery (startDiscovery (DiscState.mk false false) StartResp.ok).state
              StartResp.ok).issuedStart = false ∧
        (startDiscovery (startDiscovery (DiscState.mk false false) StartResp.ok).state
              StartResp.ok).threw = false) ∧
      startDiscovery (DiscState.mk false false) StartResp.errInProgress =
        ⟨DiscState.mk true false, true, false⟩ :=
  ⟨startDiscovery_idempotent.1 (DiscState.mk true false) StartResp.ok rfl,
   startDiscovery_idempotent.2.1 StartResp.ok StartResp.ok (by decide),
   startDiscovery_idempotent.2.2 (DiscState.mk false false) rfl rfl⟩

/-! ## Waiting for services resolved (bluezManager.js)

Embedding of `_waitForServicesResolved` as called by `discoverServices`
with its fixed 30000 ms budget.  The direct property read is abstracted as
its outcome (a value or a read error); the deviceChanged notifications
that would reach the subscribed listener before the timer fires are given
as a list of events with their arrival offsets in milliseconds.
-/

/-- A deviceChanged notification as seen by the wait listener: arrival
time in milliseconds after the wait started, the changed device's MAC,
and the servicesResolved field of the update object when present. -/
structure DevChangeEv where
  time : Nat
  mac : String
  servicesResolved : Option Bool
deriving Repr, DecidableEq

/-- Outcome of the wait: immediate return from the direct read, a resolve
triggered by the notification arriving at the given time, or the timeout
rejection. -/
inductive WaitResult where
  | immediate
  | resolvedAt (t : Nat)
  | timedOut
deriving Repr, DecidableEq

/-- The wait budget that `discoverServices` passes: 30000 ms. -/
def servicesResolvedTimeoutMs : Nat := 30000

/-- The listener loop of `_waitForServicesResolved`: deviceChanged events
are examined in arrival order; once the timer has fired (arrival offset at
or past the budget) the promise has already been rejected, and an event
for the right MAC whose update carries servicesResolved strictly equal to
true resolves the wait. -/
def waitLoop (mac : String) : List DevChangeEv → WaitResult
  | [] => WaitResult.timedOut
  | e :: rest =>
      if servicesResolvedTimeoutMs ≤ e.time then WaitResult.timedOut
      else if e.mac = mac ∧ e.servicesResolved = some true then WaitResult.resolvedAt e.time
      else waitLoop mac rest

/-- Embedding of `_waitForServicesResolved` (bluezManager.js): the
property is read once directly; only a successful read of strictly true
short-circuits (second component false means no subscription was made);
any other read outcome, including a read error, subscribes to
deviceChanged and waits. -/
def waitForServicesResolved (direct : Except Unit Bool) (mac : String)
    (events : List DevChangeEv) : WaitResult × Bool :=
  match direct with
  | Except.ok true => (WaitResult.immediate, false)
  | _ => (waitLoop mac events, true)

/-- The wait policy exactly as the specification words it: proceed
immediately without subscribing when the flag already reads true;
otherwise resolve exactly at the first deviceChanged event for the MAC
carrying servicesResolved true within the 30 second budget, and reject
with a timeout when no such event arrives within budget. -/
def specWaitForServicesResolved (direct : Except Unit Bool) (mac : String)
    (events : List DevChangeEv) : WaitResult × Bool :=
  match direct with
  | Except.ok true => (WaitResult.immediate, false)
  | _ =>
    let inBudget := events.takeWhile (fun e => e.time < servicesResolvedTimeoutMs)
    match inBudget.find? (fun e => e.mac = mac ∧ e.servicesResolved = some true) with
    | some e => (WaitResult.resolvedAt e.time, true)
    | none => (WaitResult.timedOut, true)

theorem waitLoop_eq_spec (mac : String) (events : List DevChangeEv) :
    waitLoop mac events =
      (match (events.takeWhile (fun e => e.time < servicesResolvedTimeoutMs)).find?
          (fun e => e.mac = mac ∧ e.servicesResolved = some true) with
      | some e => WaitResult.resolvedAt e.time
      | none => WaitResult.timedOut) := by
  induction events with
  | nil => simp [waitLoop]
  | cons e rest ih =>
      by_cases ht : servicesResolvedTimeoutMs ≤ e.time
      · have : ¬(e.time < servicesResolvedTimeoutMs) := by omega
        simp [waitLoop, ht, List.takeWhile_cons, this]
      · have hlt : e.time < servicesResolvedTimeoutMs := by omega
        by_cases hmatch : e.mac = mac ∧ e.servicesResolved = some true
        · simp [waitLoop, ht, hmatch, List.takeWhile_cons, hlt, List.find?]
        · simp only [waitLoop, if_neg ht, if_neg hmatch]
          rw [ih]
          simp only [List.takeWhile_cons, decide_eq_true hlt, if_pos True.intro]
          rw [List.find?_cons_of_neg _ (by simpa using hmatch)]

/-- C4: the embedded `_waitForServicesResolved` coincides with the
specification policy on every input: a direct read of true returns
immediately without subscribing; otherwise it subscribes and resolves
exactly at the first deviceChanged event for the device's MAC carrying
servicesResolved true within the 30-second budget, and rejects with a
timeout when no such event arrives in budget. -/
theorem waitForServicesResolved_eq_spec (direct : Except Unit Bool) (mac : String)
    (events : List DevChangeEv) :
    waitForServicesResolved direct mac events =
      specWaitForServicesResolved direct mac events := by
  cases direct with
  | error e =>
      cases e
      simp only [waitForServicesResolved, specWaitForServicesResolved,
        if_neg (by simp : ¬(Except.error () = Except.ok true))]
      rw [waitLoop_eq_spec]
      cases (events.takeWhile (fun e => e.time < servicesResolvedTimeoutMs)).find?
          (fun e => e.mac = mac ∧ e.servicesResolved = some true) <;> simp
  | ok b =>
      cases b with
      | true => simp [waitForServicesResolved, specWaitForServicesResolved]
      | false =>
          simp only [waitForServicesResolved, specWaitForServicesResolved,
            if_neg (by simp : ¬(Except.ok false = Except.ok true))]
          rw [waitLoop_eq_spec]
          cases (events.takeWhile (fun e => e.time < servicesResolvedTimeoutMs)).find?
              (fun e => e.mac = mac ∧ e.servicesResolved = some true) <;> simp

/-! ## Call-control entry points without a connection (hfpProfile.js) -/

/-- ASCII upper-casing of one character, as JavaScript toUpperCase acts on
the ASCII range used by MAC addresses and AT payloads. -/
def toUpperChar (c : Char) : Char :=
  if 97 ≤ c.toNat ∧ c.toNat ≤ 122 then Char.ofNat (c.toNat - 32) else c

/-- Embedding of `_normalise` (hfpProfile.js): replace every dash with a
colon, then upper-case. -/
def normaliseMac (mac : String) : String :=
  String.mk (((mac.data.map (fun c => if c = '-' then ':' else c))).map toUpperChar)

/-- The queue fields of a connection that `_sendCommand` touches. -/
structure HConn where
  cmdQueue : List String
  cmdInFlight : Bool
deriving Repr, DecidableEq

/-- The connections map of the HFP profile, keyed by normalised MAC. -/
def ConnMap : Type := List (String × HConn)

/-- Result of a call-control operation: the connections map afterwards,
the bytes written to any channel, and the rejection message if the
returned promise rejected immediately. -/
structure CallOpResult where
  conns : ConnMap
  writes : List String
  rejected : Option String

/-- Embedding of `_sendCommand` (hfpProfile.js): look up the connection
by normalised MAC and reject with the no-connection error when absent;
otherwise push the command onto the per-connection FIFO and, when it is
the only queued command, run `_sendNextCommand`, which writes the head
with a trailing carriage return unless a command is already in flight. -/
def sendCommand (conns : ConnMap) (mac cmd : String) : CallOpResult :=
  match List.lookup (normaliseMac mac) conns with
  | none => { conns := conns, writes := [], rejected := some ("No HFP connection for " ++ mac) }
  | some conn =>
      let q := conn.cmdQueue ++ [cmd]
      if q.length = 1 ∧ conn.cmdInFlight = false then
        { conns := setAssoc conns (normaliseMac mac) { cmdQueue := q, cmdInFlight := true },
          writes := [cmd ++ "\r"], rejected := none }
      else
        { conns := setAssoc conns (normaliseMac mac) { conn with cmdQueue := q },
          writes := [], rejected := none }

/-- Embedding of the dial sanitiser: keep only digits, plus, star and
hash, as the replace of everything else with the empty string does. -/
def sanitizeDialNumber (number : String) : String :=
  String.mk (number.data.filter
    (fun c => ('0' ≤ c ∧ c ≤ '9') ∨ c = '+' ∨ c = '*' ∨ c = '#'))

/-- The nine public call-control operations of the HFP profile. -/
inductive CallOp where
  | answer
  | hangup
  | reject
  | dial (number : String)
  | redial
  | sendRawAT (cmd : String)
  | sendDTMF (tone : String)
  | queryCurrentCalls
  | setVolume (vol : Int)
deriving Repr, DecidableEq

/-- The AT command string each operation builds before calling
`_sendCommand`: ATA, AT+CHUP (both hangup and reject), ATD with the
sanitised number and a trailing semicolon, AT+BLDN, the raw passthrough,
AT+VTS with the tone, AT+CLCC, and AT+VGS with the volume clamped to
0..15. -/
def atCommandFor : CallOp → String
  | CallOp.answer => "ATA"
  | CallOp.hangup => "AT+CHUP"
  | CallOp.reject => "AT+CHUP"
  | CallOp.dial number => "ATD" ++ sanitizeDialNumber number ++ ";"
  | CallOp.redial => "AT+BLDN"
  | CallOp.sendRawAT cmd => cmd
  | CallOp.sendDTMF tone => "AT+VTS=" ++ tone
  | CallOp.queryCurrentCalls => "AT+CLCC"
  | CallOp.setVolume vol => "AT+VGS=" ++ toString (max 0 (min 15 vol))

/-- Each public operation builds its command string and awaits
`_sendCommand`. -/
def runCallOp (conns : ConnMap) (mac : String) (op : CallOp) : CallOpResult :=
  sendCommand conns mac (atCommandFor op)

/-- C10: every call-control operation invoked for a MAC with no HFP
connection record rejects with the no-connection error, writes nothing to
any channel, and leaves the connections map unchanged (so no queue is
modified and no record is created). -/
theorem callOp_no_connection (conns : ConnMap) (mac : String) (op : CallOp)
    (h : List.lookup (normaliseMac mac) conns = none) :
    runCallOp conns mac op =
      { conns := conns, writes := [], rejected := some ("No HFP connection for " ++ mac) } := by
  simp [runCallOp, sendCommand, h]

/-- Witness for C10: answering for an unknown MAC on an empty connections
map rejects with the no-connection error and changes nothing. -/
theorem callOp_no_connection_witness :
    List.lookup (normaliseMac "aa-bb-cc-dd-ee-ff") ([] : ConnMap) = none ∧
      runCallOp ([] : ConnMap) "aa-bb-cc-dd-ee-ff" CallOp.answer =
        { conns := ([] : ConnMap), writes := [],
          rejected := some ("No HFP connection for " ++ "aa-bb-cc-dd-ee-ff") } :=
  ⟨rfl, callOp_no_connection ([] : ConnMap) "aa-bb-cc-dd-ee-ff" CallOp.answer rfl⟩

/-! ## MAC address and device path conversion (bluezManager.js)

Strings are handled as character lists here so that the regex search of
`devicePathToMac` can be embedded as an explicit left-to-right scan.
-/

/-- The hex-digit character class of the device-path regex. -/
def isHexDigit (c : Char) : Bool :=
  decide ('0' ≤ c ∧ c ≤ '9') || decide ('A' ≤ c ∧ c ≤ 'F') || decide ('a' ≤ c ∧ c ≤ 'f')

/-- Whether a character list starts with the underscore-separated
six-hex-pair segment of the device-path regex (two hex digits, then
underscore-separated groups, seventeen characters in all). -/
def matchesMacSeg : List Char → Bool
  | a1 :: a2 :: b1 :: a3 :: a4 :: b2 :: a5 :: a6 :: b3 :: a7 :: a8 :: b4 ::
      a9 :: a10 :: b5 :: a11 :: a12 :: _ =>
      isHexDigit a1 && isHexDigit a2 && (if b1 = '_' then true else false) &&
      isHexDigit a3 && isHexDigit a4 && (if b2 = '_' then true else false) &&
      isHexDigit a5 && isHexDigit a6 && (if b3 = '_' then true else false) &&
      isHexDigit a7 && isHexDigit a8 && (if b4 = '_' then true else false) &&
      isHexDigit a9 && isHexDigit a10 && (if b5 = '_' then true else false) &&
      isHexDigit a11 && isHexDigit a12
  | _ => false

/-- Whether a character list starts with a full match of the device-path
regex: the literal dev underscore marker followed by the MAC segment. -/
def matchesDevSeg : List Char → Bool
  | c0 :: c1 :: c2 :: c3 :: rest =>
      if c0 = 'd' then
        (if c1 = 'e' then
          (if c2 = 'v' then (if c3 = '_' then matchesMacSeg rest else false) else false)
         else false)
      else false
  | _ => false

/-- Leftmost search of the device-path regex: try a match at every
position from left to right; on the first success return the captured
seventeen-character MAC segment. -/
def findDevSeg : List Char → Option (List Char)
  | [] => none
  | c :: cs =>
      if matchesDevSeg (c :: cs) = true then some (((c :: cs).drop 4).take 17)
      else findDevSeg cs

/-- Embedding of `macToDevicePath` (bluezManager.js): replace colons and
dashes with underscores, upper-case, and append to the adapter path after
a dev marker. -/
def macToDevicePath (adapterPath mac : List Char) : List Char :=
  adapterPath ++ '/' :: 'd' :: 'e' :: 'v' :: '_' ::
    ((mac.map (fun c => if c = ':' ∨ c = '-' then '_' else c)).map toUpperChar)

/-- Embedding of `devicePathToMac` (bluezManager.js): find the first match
of the device-path regex, return the empty string when there is none, and
otherwise replace underscores with colons in the captured segment and
upper-case it. -/
def devicePathToMac (path : List Char) : List Char :=
  match findDevSeg path with
  | none => []
  | some seg => (seg.map (fun c => if c = '_' then ':' else c)).map toUpperChar

/-- The adapter path for the default hciDevice 0, slash org slash bluez
slash hci0, written out character by character. -/
def defaultAdapterPath : List Char :=
  ['/', 'o', 'r', 'g', '/', 'b', 'l', 'u', 'e', 'z', '/', 'h', 'c', 'i', '0']

/-- The sixteen upper-case hexadecimal digit characters. -/
def hexDigitChar (i : Fin 16) : Char :=
  ['0', '1', '2', '3', '4', '5', '6', '7',
   '8', '9', 'A', 'B', 'C', 'D', 'E', 'F'].getD i.val '0'

/-- Canonical MAC rendering: six upper-case hex octets separated by
colons, determined by twelve hex digits. -/
def canonicalMacChars (d : Fin 12 → Fin 16) : List Char :=
  [hexDigitChar (d 0), hexDigitChar (d 1), ':',
   hexDigitChar (d 2), hexDigitChar (d 3), ':',
   hexDigitChar (d 4), hexDigitChar (d 5), ':',
   hexDigitChar (d 6), hexDigitChar (d 7), ':',
   hexDigitChar (d 8), hexDigitChar (d 9), ':',
   hexDigitChar (d 10), hexDigitChar (d 11)]

/-- A canonical MAC address: upper-case, colon-separated, six hex
octets. -/
def IsCanonicalMac (mac : List Char) : Prop :=
  ∃ d : Fin 12 → Fin 16, mac = canonicalMacChars d

/-- C9: converting a canonical MAC address to a device path with
`macToDevicePath` on the default adapter path and back with
`devicePathToMac` returns the original MAC unchanged. -/
theorem mac_path_roundtrip (mac : List Char) (h : IsCanonicalMac mac) :
    devicePathToMac (macToDevicePath defaultAdapterPath mac) = mac := by
  obtain ⟨d, rfl⟩ := h
  have hmap : ∀ x : Fin 16,
      toUpperChar (if hexDigitChar x = ':' ∨ hexDigitChar x = '-' then '_'
        else hexDigitChar x) = hexDigitChar x := by decide
  have hback : ∀ x : Fin 16,
      toUpperChar (if hexDigitChar x = '_' then ':' else hexDigitChar x)
        = hexDigitChar x := by decide
  have hhex : ∀ x : Fin 16, isHexDigit (hexDigitChar x) = true := by decide
  simp only [canonicalMacChars, macToDevicePath, defaultAdapterPath, List.map_cons,
    List.map_nil, hmap, List.cons_append, List.nil_append]
  have hu : toUpperChar '_' = '_' := by decide
  simp only [true_or, if_true, hu]
  simp only [devicePathToMac, findDevSeg, matchesDevSeg, matchesMacSeg, hhex]
  have hcolon : toUpperChar ':' = ':' := by decide
  simp [isHexDigit, hback, hcolon]

/-- Witness for C9 at the MAC AA colon BB colon CC colon DD colon EE
colon FF. -/
theorem mac_path_roundtrip_witness :
    IsCanonicalMac ("AA:BB:CC:DD:EE:FF".data) ∧
      devicePathToMac (macToDevicePath defaultAdapterPath "AA:BB:CC:DD:EE:FF".data)
        = "AA:BB:CC:DD:EE:FF".data := by
  have h : IsCanonicalMac ("AA:BB:CC:DD:EE:FF".data) := by
    refine ⟨fun i => match i with
      | 0 => 10 | 1 => 10 | 2 => 11 | 3 => 11 | 4 => 12 | 5 => 12
      | 6 => 13 | 7 => 13 | 8 => 14 | 9 => 14 | 10 => 15 | 11 => 15, ?_⟩
    decide
  exact ⟨h, mac_path_roundtrip "AA:BB:CC:DD:EE:FF".data h⟩

/-! ## Control-bus signal dispatcher (bluezManager.js)

Embedding of `_onDbusMessage` and the handlers it routes to:
`_onInterfacesAdded`, `_onInterfacesRemoved`, `_onPropertiesChanged`,
`_onDevicePropertiesChanged`, `_onBatteryChanged`, together with the data
conversion helpers `_unwrapValue`, `_unwrapVariants`, `_buildDeviceInfo`,
`_detectDeviceType`, `_parseManufacturerData` and `_parseServiceData`.

Dynamically typed JavaScript values are modelled by the `JsVal` type;
JavaScript operations that can raise (property access on null or
undefined, destructuring a non-iterable, calling a string method on a
non-string, a range-checked buffer write) return `Except`, and a raised
error carries along the state mutations already performed, exactly as an
exception would leave them in place. -/

/-- Dynamically typed JavaScript values as they appear in D-Bus
notifications: undefined, null, booleans, numbers (NaN separate), strings,
arrays, plain objects, dbus-next Variant objects, and byte buffers. -/
inductive JsVal where
  | undef
  | null
  | bool (b : Bool)
  | num (n : Int)
  | nan
  | str (s : String)
  | arr (elems : List JsVal)
  | obj (fields : List (String × JsVal))
  | variantV (sig : String) (value : JsVal)
  | buf (bytes : List Nat)

/-- A JavaScript object as a field map. -/
def JsObj : Type := List (String × JsVal)

/-- JavaScript truthiness: undefined, null, false, 0, NaN and the empty
string are falsy; every object, array and buffer is truthy. -/
def jsTruthy : JsVal → Bool
  | JsVal.undef => false
  | JsVal.null => false
  | JsVal.bool b => b
  | JsVal.num n => decide (n ≠ 0)
  | JsVal.nan => false
  | JsVal.str s => decide (s ≠ "")
  | JsVal.arr _ => true
  | JsVal.obj _ => true
  | JsVal.variantV _ _ => true
  | JsVal.buf _ => true

/-- Whether typeof yields object (null, arrays, objects, Variants and
buffers do; strings, numbers, booleans and undefined do not). -/
def jsTypeofObject : JsVal → Bool
  | JsVal.null => true
  | JsVal.arr _ => true
  | JsVal.obj _ => true
  | JsVal.variantV _ _ => true
  | JsVal.buf _ => true
  | _ => false

/-- JavaScript logical-or: the left operand when truthy, else the right. -/
def jsOr (a b : JsVal) : JsVal :=
  if jsTruthy a then a else b

/-- JavaScript nullish coalescing: the right operand only for null and
undefined. -/
def jsNullish (a b : JsVal) : JsVal :=
  match a with
  | JsVal.undef => b
  | JsVal.null => b
  | _ => a

/-- Strict equality of a value against a string literal. -/
def jsIsStrEq (v : JsVal) (s : String) : Bool :=
  match v with
  | JsVal.str t => decide (t = s)
  | _ => false

/-- Property access v[key] for a non-numeric key: throws on null and
undefined; objects yield the field or undefined; a Variant object exposes
its signature and value fields; other primitives have no such
properties. -/
def jsGetProp : JsVal → String → Except String JsVal
  | JsVal.undef, k => Except.error ("TypeError: cannot read properties of undefined: " ++ k)
  | JsVal.null, k => Except.error ("TypeError: cannot read properties of null: " ++ k)
  | JsVal.obj fields, k => Except.ok ((List.lookup k fields).getD JsVal.undef)
  | JsVal.variantV sig v, k =>
      Except.ok (if k = "signature" then JsVal.str sig
        else if k = "value" then v else JsVal.undef)
  | _, _ => Except.ok JsVal.undef

/-- Object.entries: object fields in order; arrays and buffers yield
index-keyed entries; a Variant object yields its two fields. -/
def jsEntries : JsVal → List (String × JsVal)
  | JsVal.obj fields => fields
  | JsVal.arr es => es.enum.map (fun p => (toString p.1, p.2))
  | JsVal.buf bs => bs.enum.map (fun p => (toString p.1, JsVal.num (Int.ofNat p.2)))
  | JsVal.variantV sig v => [("signature", JsVal.str sig), ("value", v)]
  | _ => []

mutual
/-- Embedding of `_unwrapValue` (bluezManager.js): a Variant-shaped value
is unwrapped recursively; a plain object (not an array, not a buffer) has
its fields unwrapped; everything else, arrays included, is returned
unchanged. -/
def unwrapValue : JsVal → JsVal
  | JsVal.variantV _ v => unwrapValue v
  | JsVal.obj fields => JsVal.obj (unwrapFields fields)
  | v => v

/-- Unwrap every field value of an object. -/
def unwrapFields : List (String × JsVal) → List (String × JsVal)
  | [] => []
  | (k, v) :: rest => (k, unwrapValue v) :: unwrapFields rest
end

/-- Embedding of `_unwrapVariants` (bluezManager.js): a falsy or
non-object argument yields the empty dict, otherwise every entry is
unwrapped. -/
def unwrapVariantsJs (dict : JsVal) : JsObj :=
  if jsTruthy dict && jsTypeofObject dict then
    (jsEntries dict).map (fun p => (p.1, unwrapValue p.2))
  else []

/-- JavaScript toUpperCase on the ASCII range. -/
def jsToUpperStr (s : String) : String :=
  String.mk (s.data.map toUpperChar)

/-- Decimal digit accumulator for number parsing. -/
def decDigitsValAux : List Char → Nat → Option Nat
  | [], acc => some acc
  | c :: rest, acc =>
      if '0' ≤ c ∧ c ≤ '9' then decDigitsValAux rest (acc * 10 + (c.toNat - 48))
      else none

/-- JavaScript Number applied to a dictionary-key string, covering the
decimal-integer strings D-Bus dictionary keys produce: the empty string is
0, an optionally negated digit string is its value, and every other shape
is treated as NaN (none). -/
def jsStringToNumber (s : String) : Option Int :=
  match s.data with
  | [] => some 0
  | '-' :: rest =>
      match rest with
      | [] => none
      | _ => (decDigitsValAux rest 0).map (fun n => -(Int.ofNat n))
  | l => (decDigitsValAux l 0).map Int.ofNat

/-- Byte coercion Buffer.from applies to array elements: numbers are
truncated modulo 256 and non-numbers coerce to 0. -/
def jsToByte : JsVal → Nat
  | JsVal.num n => (n % 256).toNat
  | _ => 0

/-- Buffer.from as used on a GATT characteristic value: arrays and
buffers convert, strings convert through their character codes, and every
other truthy value throws. -/
def jsBufferFrom : JsVal → Except String (List Nat)
  | JsVal.arr es => Except.ok (es.map jsToByte)
  | JsVal.buf bs => Except.ok bs
  | JsVal.str s => Except.ok (s.data.map (fun c => c.toNat % 256))
  | _ => Except.error "TypeError: argument must be a string, Buffer, ArrayBuffer, or Array"

/-- Embedding of `_parseManufacturerData` (bluezManager.js): falsy or
non-object data is null; an empty dict is null; otherwise the first entry
is taken, its key converted with Number and written with a range-checked
16-bit write (which throws on NaN and on values outside 0..65535, exactly
the malformed-notification throw site of this handler), and the unwrapped
payload bytes are appended behind the little-endian company id. -/
def parseManufacturerData (mfData : JsVal) : Except String JsVal :=
  if jsTruthy mfData && jsTypeofObject mfData then
    match jsEntries mfData with
    | [] => Except.ok JsVal.null
    | (companyIdStr, payload) :: _ =>
        let payloadBuf : List Nat :=
          match unwrapValue payload with
          | JsVal.buf bs => bs
          | JsVal.arr es => es.map jsToByte
          | _ => []
        match jsStringToNumber companyIdStr with
        | none => Except.error "RangeError: value argument of writeUInt16LE is out of range"
        | some v =>
            if 0 ≤ v ∧ v ≤ 65535 then
              Except.ok (JsVal.buf ((v.toNat % 256) :: (v.toNat / 256) :: payloadBuf))
            else Except.error "RangeError: value argument of writeUInt16LE is out of range"
  else Except.ok JsVal.null

/-- JavaScript toLowerCase on the ASCII range applied to a uuid key. -/
def jsToLowerStr (s : String) : String :=
  String.mk (s.data.map toLowerChar)

/-- Embedding of `_parseServiceData` (bluezManager.js): falsy or
non-object data is the empty list; each entry's payload is unwrapped and
coerced to bytes, the uuid key is lower-cased with dashes removed, and a
32-character uuid is shortened to characters four to eight. -/
def parseServiceData (svcData : JsVal) : JsVal :=
  if jsTruthy svcData && jsTypeofObject svcData then
    JsVal.arr ((jsEntries svcData).map (fun p =>
      let dataBytes : List Nat :=
        match unwrapValue p.2 with
        | JsVal.buf bs => bs
        | JsVal.arr es => es.map jsToByte
        | _ => []
      let normalized := ((jsToLowerStr p.1).data).filter (fun c => decide (c ≠ '-'))
      let short := if normalized.length = 32 then (normalized.drop 4).take 4 else normalized
      JsVal.obj [("uuid", JsVal.str (String.mk short)), ("data", JsVal.buf dataBytes)]))
  else JsVal.arr []

/-- Embedding of `_detectDeviceType` (bluezManager.js): a public or
random address type marks low energy, a positive numeric class marks
classic, both mark dual. -/
def detectDeviceType (addressType btClass : JsVal) : String :=
  let hasBle : Bool :=
    match addressType with
    | JsVal.str s => decide (s = "public" ∨ s = "random")
    | _ => false
  let hasClassic : Bool :=
    match btClass with
    | JsVal.num n => decide (0 < n)
    | _ => false
  if hasBle && hasClassic then "dual"
  else if hasClassic then "classic"
  else "le"

/-- Embedding of `_buildDeviceInfo` (bluezManager.js): the normalized
device record with its defaults; building can only throw from the
manufacturer-data write. -/
def buildDeviceInfo (path : String) (props : JsObj) : Except String JsObj :=
  let get : String → JsVal := fun k => (List.lookup k props).getD JsVal.undef
  let addressType := jsOr (get "AddressType") (JsVal.str "unknown")
  let btClass := jsNullish (get "Class") JsVal.null
  match parseManufacturerData (get "ManufacturerData") with
  | Except.error e => Except.error e
  | Except.ok mfd =>
      Except.ok [
        ("path", JsVal.str path),
        ("address", jsOr (get "Address") (JsVal.str "")),
        ("name", jsOr (get "Name") (JsVal.str "")),
        ("alias", jsOr (get "Alias") (JsVal.str "")),
        ("rssi", jsNullish (get "RSSI") JsVal.null),
        ("txPower", jsNullish (get "TxPower") JsVal.null),
        ("paired", jsNullish (get "Paired") (JsVal.bool false)),
        ("bonded", jsNullish (get "Bonded") (JsVal.bool false)),
        ("trusted", jsNullish (get "Trusted") (JsVal.bool false)),
        ("blocked", jsNullish (get "Blocked") (JsVal.bool false)),
        ("connected", jsNullish (get "Connected") (JsVal.bool false)),
        ("addressType", addressType),
        ("class", btClass),
        ("icon", jsOr (get "Icon") (JsVal.str "")),
        ("battery", JsVal.null),
        ("servicesResolved", jsNullish (get "ServicesResolved") (JsVal.bool false)),
        ("type", JsVal.str (detectDeviceType addressType btClass)),
        ("manufacturerData", mfd),
        ("serviceData", parseServiceData (get "ServiceData")),
        ("uuids", match get "UUIDs" with | JsVal.arr es => JsVal.arr es | _ => JsVal.arr [])]

/-- Whether a character list begins with the given needle (the core of
String.startsWith). -/
def charsHavePre : List Char → List Char → Bool
  | [], _ => true
  | _ :: _, [] => false
  | n :: ns, h :: hs => if h = n then charsHavePre ns hs else false

/-- Whether a character list contains the needle as a contiguous
substring (the core of String.includes). -/
def charsContains (needle : List Char) : List Char → Bool
  | [] => charsHavePre needle []
  | c :: hs => if charsHavePre needle (c :: hs) then true else charsContains needle hs

/-- The D-Bus interface names the dispatcher and its handlers compare
against. -/
def OBJECT_MANAGER_IFACE : String := "org.freedesktop.DBus.ObjectManager"

def PROPERTIES_IFACE : String := "org.freedesktop.DBus.Properties"

def DEVICE_IFACE : String := "org.bluez.Device1"

def GATT_CHAR_IFACE : String := "org.bluez.GattCharacteristic1"

def BATTERY_IFACE : String := "org.bluez.Battery1"

def MEDIA_PLAYER_IFACE : String := "org.bluez.MediaPlayer1"

/-- The manager state the dispatcher reads and writes: the destroyed
flag, the adapter path, the device cache keyed by MAC, and the set of
characteristic paths with a registered notify callback. -/
structure BzState where
  destroyed : Bool
  adapterPath : String
  devices : List (String × JsObj)
  notifyPaths : List String

/-- Events the dispatcher and its handlers emit. -/
inductive BzEmit where
  | mediaPlayerAdded (path : JsVal)
  | mediaPlayerRemoved (path : JsVal)
  | mediaPlayerChanged (path : String) (props : JsObj)
  | deviceFound (mac : String) (record : JsObj)
  | deviceChanged (mac : String) (updates : JsObj)
  | deviceRemoved (mac : String)
  | characteristicChanged (path : String) (bytes : List Nat)
  | notifyCallbackInvoked (path : String) (bytes : List Nat)

/-- Result of one handler run: the device cache afterwards, the events
emitted before returning or throwing, and the error raised, if any.  An
error leaves the mutations already performed in place, exactly like a
JavaScript exception. -/
structure HandlerOut where
  devices : List (String × JsObj)
  emits : List BzEmit
  err : Option String

/-- Map removal with JavaScript Map.delete semantics. -/
def eraseAssoc {α : Type} (l : List (String × α)) (k : String) : List (String × α) :=
  match l with
  | [] => []
  | (k0, v0) :: rest => if k0 = k then rest else (k0, v0) :: eraseAssoc rest k

/-- Array.includes on the interfaces argument: arrays compare elements
strictly, strings search for a substring, anything else throws. -/
def jsIncludes (v : JsVal) (needle : String) : Except String Bool :=
  match v with
  | JsVal.arr es => Except.ok (es.any (fun e => jsIsStrEq e needle))
  | JsVal.str s => Except.ok (charsContains needle.data s.data)
  | _ => Except.error "TypeError: interfaces.includes is not a function"

/-- The MAC computation of `_onInterfacesAdded`: the Address property
upper-cased when truthy (a throw site when it is truthy but not a
string), the path-derived MAC otherwise. -/
def addedMacE (ps : String) (dev : JsVal) : Except String String :=
  let addr := (List.lookup "Address" (unwrapVariantsJs dev)).getD JsVal.undef
  if jsTruthy addr then
    match addr with
    | JsVal.str a => Except.ok (jsToUpperStr a)
    | _ => Except.error "TypeError: Address.toUpperCase is not a function"
  else Except.ok (String.mk (devicePathToMac ps.data))

/-- Embedding of `_onInterfacesAdded` (bluezManager.js).  The first
property access throws on a null or undefined interfaces argument; the
media-endpoint check short-circuits, so the path is only required to be a
string when the media interface is present or when a device interface is;
the MAC comes from the Address property when truthy (throwing if it is
not a string) and from the path otherwise, and a falsy MAC drops the
notification; the record is built, battery is attached when a battery
interface rides along, and the cache is written at the MAC before
deviceFound is emitted. -/
def onInterfacesAdded (st : BzState) (pathV ifacesV : JsVal) : HandlerOut :=
  match jsGetProp ifacesV MEDIA_PLAYER_IFACE with
  | Except.error e => ⟨st.devices, [], some e⟩
  | Except.ok mp =>
      let step1 : Except String (List BzEmit) :=
        if jsTruthy mp then
          match pathV with
          | JsVal.str s =>
              Except.ok (if charsHavePre st.adapterPath.data s.data
                then [BzEmit.mediaPlayerAdded pathV] else [])
          | _ => Except.error "TypeError: path.startsWith is not a function"
        else Except.ok []
      match step1 with
      | Except.error e => ⟨st.devices, [], some e⟩
      | Except.ok emits1 =>
          match jsGetProp ifacesV DEVICE_IFACE with
          | Except.error e => ⟨st.devices, emits1, some e⟩
          | Except.ok dev =>
              if jsTruthy dev = false then ⟨st.devices, emits1, none⟩
              else
                match pathV with
                | JsVal.str ps =>
                    if charsHavePre st.adapterPath.data ps.data = false then
                      ⟨st.devices, emits1, none⟩
                    else
                      let props := unwrapVariantsJs dev
                      match addedMacE ps dev with
                      | Except.error e => ⟨st.devices, emits1, some e⟩
                      | Except.ok mac =>
                          if mac = "" then ⟨st.devices, emits1, none⟩
                          else
                            match buildDeviceInfo ps props with
                            | Except.error e => ⟨st.devices, emits1, some e⟩
                            | Except.ok info0 =>
                                match jsGetProp ifacesV BATTERY_IFACE with
                                | Except.error e => ⟨st.devices, emits1, some e⟩
                                | Except.ok bat =>
                                    let info :=
                                      if jsTruthy bat then
                                        setAssoc info0 "battery"
                                          (jsNullish ((List.lookup "Percentage"
                                              (unwrapVariantsJs bat)).getD JsVal.undef)
                                            JsVal.null)
                                      else info0
                                    ⟨setAssoc st.devices mac info,
                                      emits1 ++ [BzEmit.deviceFound mac info], none⟩
                | _ => ⟨st.devices, emits1,
                    some "TypeError: path.startsWith is not a function"⟩

/-- Embedding of `_onInterfacesRemoved` (bluezManager.js): the includes
call throws on a non-array, non-string interfaces argument; a media
removal is forwarded; without a device interface nothing happens; the MAC
comes from the path (throwing on a non-string path) and a falsy MAC drops
the notification; otherwise the cache entry is deleted and deviceRemoved
emitted. -/
def onInterfacesRemoved (st : BzState) (pathV ifacesV : JsVal) : HandlerOut :=
  match jsIncludes ifacesV MEDIA_PLAYER_IFACE with
  | Except.error e => ⟨st.devices, [], some e⟩
  | Except.ok hasMp =>
      let emits1 := if hasMp then [BzEmit.mediaPlayerRemoved pathV] else []
      match jsIncludes ifacesV DEVICE_IFACE with
      | Except.error e => ⟨st.devices, emits1, some e⟩
      | Except.ok hasDev =>
          if hasDev = false then ⟨st.devices, emits1, none⟩
          else
            match pathV with
            | JsVal.str ps =>
                let mac := String.mk (devicePathToMac ps.data)
                if mac = "" then ⟨st.devices, emits1, none⟩
                else ⟨eraseAssoc st.devices mac, emits1 ++ [BzEmit.deviceRemoved mac], none⟩
            | _ => ⟨st.devices, emits1, some "TypeError: path.match is not a function"⟩

/-- The ten unconditional single-field updates of
`_onDevicePropertiesChanged`, as source-property and record-field
pairs, in source order. -/
def simpleFieldPairs : List (String × String) :=
  [("RSSI", "rssi"), ("Connected", "connected"), ("Paired", "paired"),
   ("Bonded", "bonded"), ("Trusted", "trusted"), ("Blocked", "blocked"),
   ("Name", "name"), ("Alias", "alias"), ("TxPower", "txPower"),
   ("ServicesResolved", "servicesResolved")]

/-- Apply the simple field updates present in the unwrapped change dict
to the device record, collecting the changed fields. -/
def applySimpleFields (unwrapped : JsObj) :
    List (String × String) → JsObj → JsObj → JsObj × JsObj
  | [], device, updates => (device, updates)
  | (src, dst) :: rest, device, updates =>
      match List.lookup src unwrapped with
      | some v => applySimpleFields unwrapped rest (setAssoc device dst v) (setAssoc updates dst v)
      | none => applySimpleFields unwrapped rest device updates

/-- The mutation and emission part of `_onDevicePropertiesChanged` once
the device record is at hand: simple fields are assigned in place,
manufacturer data is parsed (the one throw site, which leaves the simple
assignments behind), service data is parsed, and deviceChanged is emitted
exactly when at least one field changed. -/
def onDevicePropsCore (devices0 : List (String × JsObj)) (mac : String)
    (device0 : JsObj) (changed : JsVal) : HandlerOut :=
  let unwrapped := unwrapVariantsJs changed
  let pair1 := applySimpleFields unwrapped simpleFieldPairs device0 []
  let mfdStep : Except String (Option JsVal) :=
    match List.lookup "ManufacturerData" unwrapped with
    | some mv =>
        (match parseManufacturerData mv with
         | Except.error e => Except.error e
         | Except.ok mfd => Except.ok (some mfd))
    | none => Except.ok none
  match mfdStep with
  | Except.error e => ⟨setAssoc devices0 mac pair1.1, [], some e⟩
  | Except.ok mfdOpt =>
      let pair2 :=
        match mfdOpt with
        | some mfd =>
            (setAssoc pair1.1 "manufacturerData" mfd, setAssoc pair1.2 "manufacturerData" mfd)
        | none => pair1
      let pair3 :=
        match List.lookup "ServiceData" unwrapped with
        | some sv =>
            let sd := parseServiceData sv
            (setAssoc pair2.1 "serviceData" sd, setAssoc pair2.2 "serviceData" sd)
        | none => pair2
      ⟨setAssoc devices0 mac pair3.1,
        (if pair3.2.isEmpty then [] else [BzEmit.deviceChanged mac pair3.2]), none⟩

/-- Embedding of `_onDevicePropertiesChanged` (bluezManager.js): the MAC
comes from the path and a falsy MAC drops the notification; an unknown
device gets a stub record (built from empty properties, with the address
field set to the MAC) inserted into the cache before the updates are
applied. -/
def onDevicePropertiesChanged (st : BzState) (path : String) (changed : JsVal) : HandlerOut :=
  let mac := String.mk (devicePathToMac path.data)
  if mac = "" then ⟨st.devices, [], none⟩
  else
    match List.lookup mac st.devices with
    | some device0 => onDevicePropsCore st.devices mac device0 changed
    | none =>
        match buildDeviceInfo path [] with
        | Except.error e => ⟨st.devices, [], some e⟩
        | Except.ok stub0 =>
            let stub := setAssoc stub0 "address" (JsVal.str mac)
            onDevicePropsCore (setAssoc st.devices mac stub) mac stub changed

/-- Embedding of `_onBatteryChanged` (bluezManager.js): a falsy MAC or
unknown device drops the notification; a Percentage entry updates the
battery field and emits deviceChanged with only that field. -/
def onBatteryChanged (st : BzState) (path : String) (changed : JsVal) : HandlerOut :=
  let mac := String.mk (devicePathToMac path.data)
  if mac = "" then ⟨st.devices, [], none⟩
  else
    match List.lookup mac st.devices with
    | none => ⟨st.devices, [], none⟩
    | some device =>
        match List.lookup "Percentage" (unwrapVariantsJs changed) with
        | none => ⟨st.devices, [], none⟩
        | some v =>
            ⟨setAssoc st.devices mac (setAssoc device "battery" v),
              [BzEmit.deviceChanged mac [("battery", v)]], none⟩

/-- Embedding of `_onPropertiesChanged` (bluezManager.js): route on the
changed interface and path scope; the GATT branch converts the value with
Buffer.from (a throw site for truthy non-byte shapes), invokes the
registered notify callback for the path inside its own guard, and emits
characteristicChanged. -/
def onPropertiesChanged (st : BzState) (path : String) (ifaceName changed : JsVal) : HandlerOut :=
  if jsIsStrEq ifaceName DEVICE_IFACE &&
      charsHavePre (st.adapterPath ++ "/dev_").data path.data then
    onDevicePropertiesChanged st path changed
  else if jsIsStrEq ifaceName BATTERY_IFACE &&
      charsHavePre (st.adapterPath ++ "/dev_").data path.data then
    onBatteryChanged st path changed
  else if jsIsStrEq ifaceName MEDIA_PLAYER_IFACE &&
      charsHavePre st.adapterPath.data path.data then
    ⟨st.devices, [BzEmit.mediaPlayerChanged path (unwrapVariantsJs changed)], none⟩
  else if jsIsStrEq ifaceName GATT_CHAR_IFACE && jsTruthy changed then
    match List.lookup "Value" (unwrapVariantsJs changed) with
    | none => ⟨st.devices, [], none⟩
    | some v =>
        match jsBufferFrom (jsOr v (JsVal.arr [])) with
        | Except.error e => ⟨st.devices, [], some e⟩
        | Except.ok bytes =>
            let cb := if st.notifyPaths.contains path
              then [BzEmit.notifyCallbackInvoked path bytes] else []
            ⟨st.devices, cb ++ [BzEmit.characteristicChanged path bytes], none⟩
  else ⟨st.devices, [], none⟩

/-- Element of a string or buffer under iterator destructuring. -/
def strCharAt (s : String) (i : Nat) : JsVal :=
  match s.data.get? i with
  | some c => JsVal.str (String.mk [c])
  | none => JsVal.undef

/-- Two-element array destructuring: arrays, strings and buffers are
iterable (missing elements become undefined); everything else throws. -/
def jsDestructure2 (v : JsVal) : Except String (JsVal × JsVal) :=
  match v with
  | JsVal.arr es => Except.ok (es.getD 0 JsVal.undef, es.getD 1 JsVal.undef)
  | JsVal.str s => Except.ok (strCharAt s 0, strCharAt s 1)
  | JsVal.buf bs =>
      Except.ok ((bs.get? 0).elim JsVal.undef (fun b => JsVal.num (Int.ofNat b)),
        (bs.get? 1).elim JsVal.undef (fun b => JsVal.num (Int.ofNat b)))
  | _ => Except.error "TypeError: object is not iterable"

/-- Three-element array destructuring, same iterability rules. -/
def jsDestructure3 (v : JsVal) : Except String (JsVal × JsVal × JsVal) :=
  match v with
  | JsVal.arr es =>
      Except.ok (es.getD 0 JsVal.undef, es.getD 1 JsVal.undef, es.getD 2 JsVal.undef)
  | JsVal.str s => Except.ok (strCharAt s 0, strCharAt s 1, strCharAt s 2)
  | JsVal.buf bs =>
      Except.ok ((bs.get? 0).elim JsVal.undef (fun b => JsVal.num (Int.ofNat b)),
        (bs.get? 1).elim JsVal.undef (fun b => JsVal.num (Int.ofNat b)),
        (bs.get? 2).elim JsVal.undef (fun b => JsVal.num (Int.ofNat b)))
  | _ => Except.error "TypeError: object is not iterable"

/-- An incoming D-Bus message as the dispatcher sees it: interface,
member and path (absent fields are undefined) and the body payload. -/
structure Msg where
  iface : Option String
  member : Option String
  path : Option String
  body : Option JsVal

/-- Truthiness of an optional string field. -/
def optTruthyStr : Option String → Bool
  | some s => decide (s ≠ "")
  | none => false

/-- Truthiness of an optional body value. -/
def optTruthyVal : Option JsVal → Bool
  | some v => jsTruthy v
  | none => false

/-- The routing body inside the try of `_onDbusMessage`: discriminate the
three signal categories, destructure the body (a throw site for malformed
bodies) and run the matching handler; everything else falls through. -/
def dispatchInner (st : BzState) (m : Msg) : HandlerOut :=
  if m.iface = some OBJECT_MANAGER_IFACE ∧ m.member = some "InterfacesAdded" ∧
      optTruthyVal m.body then
    match jsDestructure2 (m.body.getD JsVal.undef) with
    | Except.error e => ⟨st.devices, [], some e⟩
    | Except.ok pv => onInterfacesAdded st pv.1 pv.2
  else if m.iface = some OBJECT_MANAGER_IFACE ∧ m.member = some "InterfacesRemoved" ∧
      optTruthyVal m.body then
    match jsDestructure2 (m.body.getD JsVal.undef) with
    | Except.error e => ⟨st.devices, [], some e⟩
    | Except.ok pv => onInterfacesRemoved st pv.1 pv.2
  else if m.iface = some PROPERTIES_IFACE ∧ m.member = some "PropertiesChanged" ∧
      optTruthyVal m.body ∧ optTruthyStr m.path then
    match jsDestructure3 (m.body.getD JsVal.undef) with
    | Except.error e => ⟨st.devices, [], some e⟩
    | Except.ok triple => onPropertiesChanged st (m.path.getD "") triple.1 triple.2.1
  else ⟨st.devices, [], none⟩

/-- Result of dispatching one message: the state afterwards, the events
emitted, and the error that was caught and logged, if processing raised
one. -/
structure DispatchOut where
  state : BzState
  emits : List BzEmit
  caught : Option String

/-- Embedding of `_onDbusMessage` (bluezManager.js): a missing message or
a destroyed manager or a falsy interface returns immediately; otherwise
the routing body runs inside a try whose catch only logs, so whatever the
body raised is contained and the mutations performed before the raise
remain. -/
def dispatchMsg (st : BzState) (m : Option Msg) : DispatchOut :=
  match m with
  | none => ⟨st, [], none⟩
  | some msg =>
      if st.destroyed || !optTruthyStr msg.iface then ⟨st, [], none⟩
      else
        let out := dispatchInner st msg
        ⟨{ st with devices := out.devices }, out.emits, out.err⟩

/-- Dispatch a whole sequence of notifications, collecting emitted events
and caught errors. -/
def dispatchAll (st : BzState) (msgs : List (Option Msg)) :
    BzState × List BzEmit × List String :=
  msgs.foldl
    (fun acc m =>
      let out := dispatchMsg acc.1 m
      (out.state, acc.2.1 ++ out.emits, acc.2.2 ++ out.caught.toList))
    (st, [], [])

theorem lookup_setAssoc_ne {α : Type} (l : List (String × α)) (k k2 : String) (v : α)
    (h : k2 ≠ k) : List.lookup k2 (setAssoc l k v) = List.lookup k2 l := by
  have hb : (k2 == k) = false := beq_eq_false_iff_ne.mpr h
  induction l with
  | nil => simp [setAssoc, List.lookup, hb]
  | cons p rest ih =>
      obtain ⟨k0, v0⟩ := p
      by_cases hk : k0 = k
      · subst hk
        simp [setAssoc, List.lookup, hb]
      · simp [setAssoc, List.lookup, hk, ih]

theorem lookup_eraseAssoc_ne {α : Type} (l : List (String × α)) (k k2 : String)
    (h : k2 ≠ k) : List.lookup k2 (eraseAssoc l k) = List.lookup k2 l := by
  have hb : (k2 == k) = false := beq_eq_false_iff_ne.mpr h
  induction l with
  | nil => simp [eraseAssoc]
  | cons p rest ih =>
      obtain ⟨k0, v0⟩ := p
      by_cases hk : k0 = k
      · subst hk
        simp [eraseAssoc, List.lookup, hb]
      · simp [eraseAssoc, List.lookup, hk, ih]

theorem onDevicePropsCore_lookup (devices0 : List (String × JsObj)) (mac0 : String)
    (device0 : JsObj) (changed : JsVal) (mac : String) (h : mac ≠ mac0) :
    List.lookup mac (onDevicePropsCore devices0 mac0 device0 changed).devices
      = List.lookup mac devices0 := by
  simp only [onDevicePropsCore]
  split
  · exact lookup_setAssoc_ne _ _ _ _ h
  · exact lookup_setAssoc_ne _ _ _ _ h

theorem onDevicePropertiesChanged_lookup (st : BzState) (path : String) (changed : JsVal)
    (mac : String) (h : mac ≠ String.mk (devicePathToMac path.data)) :
    List.lookup mac (onDevicePropertiesChanged st path changed).devices
      = List.lookup mac st.devices := by
  simp only [onDevicePropertiesChanged]
  split
  · rfl
  · split
    · exact onDevicePropsCore_lookup _ _ _ _ _ h
    · split
      · rfl
      · rw [onDevicePropsCore_lookup _ _ _ _ _ h]
        exact lookup_setAssoc_ne _ _ _ _ h

theorem onBatteryChanged_lookup (st : BzState) (path : String) (changed : JsVal)
    (mac : String) (h : mac ≠ String.mk (devicePathToMac path.data)) :
    List.lookup mac (onBatteryChanged st path changed).devices
      = List.lookup mac st.devices := by
  simp only [onBatteryChanged]
  split
  · rfl
  · split
    · rfl
    · split
      · rfl
      · exact lookup_setAssoc_ne _ _ _ _ h

theorem onPropertiesChanged_lookup (st : BzState) (path : String) (ifaceName changed : JsVal)
    (mac : String) (h : mac ≠ String.mk (devicePathToMac path.data)) :
    List.lookup mac (onPropertiesChanged st path ifaceName changed).devices
      = List.lookup mac st.devices := by
  simp only [onPropertiesChanged]
  split
  · exact onDevicePropertiesChanged_lookup _ _ _ _ h
  · split
    · exact onBatteryChanged_lookup _ _ _ _ h
    · split
      · rfl
      · split
        · split
          · rfl
          · split
            · rfl
            · rfl
        · rfl

/-- The MAC an object-added notification would derive from its Address
property, when it has one: the only MAC besides the path-derived one that
`_onInterfacesAdded` can write. -/
def addressCandidate (ifacesV : JsVal) : List String :=
  match jsGetProp ifacesV DEVICE_IFACE with
  | Except.error _ => []
  | Except.ok dev =>
      match (List.lookup "Address" (unwrapVariantsJs dev)).getD JsVal.undef with
      | JsVal.str a => [jsToUpperStr a]
      | _ => []

theorem addedMacE_candidate (ps : String) (dev : JsVal) (mac0 : String) (ifacesV : JsVal)
    (hdev : jsGetProp ifacesV DEVICE_IFACE = Except.ok dev)
    (h : addedMacE ps dev = Except.ok mac0) :
    mac0 = String.mk (devicePathToMac ps.data) ∨ mac0 ∈ addressCandidate ifacesV := by
  revert h
  simp only [addedMacE]
  split
  · split
    · intro h
      injection h with hm
      right
      simp only [addressCandidate, hdev]
      rename_i ha
      rw [ha]
      simp [hm]
    · intro h
      exact absurd h (by simp)
  · intro h
    injection h with hm
    exact Or.inl hm.symm

theorem onInterfacesAdded_lookup (st : BzState) (pathV ifacesV : JsVal) (mac : String)
    (hpath : ∀ s, pathV = JsVal.str s → String.mk (devicePathToMac s.data) ≠ "" →
      mac ≠ String.mk (devicePathToMac s.data))
    (haddr : mac ∉ addressCandidate ifacesV) :
    List.lookup mac (onInterfacesAdded st pathV ifacesV).devices
      = List.lookup mac st.devices := by
  simp only [onInterfacesAdded]
  repeat' split
  all_goals try rfl
  all_goals
    rename_i xa mpv hmp step1 emits1 xb dev hdev hdevT v ps hstep hsw xc mac0 hmacE hne
      xd info0 hbuild xe bat hbat hbatT
  all_goals
    refine lookup_setAssoc_ne _ _ _ _ ?_
  all_goals
    intro hcontra
  all_goals
    cases addedMacE_candidate ps dev mac0 ifacesV hdev hmacE with
    | inl hl => exact hpath ps rfl (fun he => hne (hl.trans he)) (hcontra.trans hl)
    | inr hr => exact haddr (hcontra ▸ hr)

theorem onInterfacesRemoved_lookup (st : BzState) (pathV ifacesV : JsVal) (mac : String)
    (hpath : ∀ s, pathV = JsVal.str s → String.mk (devicePathToMac s.data) ≠ "" →
      mac ≠ String.mk (devicePathToMac s.data)) :
    List.lookup mac (onInterfacesRemoved st pathV ifacesV).devices
      = List.lookup mac st.devices := by
  simp only [onInterfacesRemoved]
  repeat' split
  all_goals try rfl
  all_goals
    rename_i xa hasMp hMp xb hasDev hDev hdevT v ps hne hmp2
  all_goals
    exact lookup_eraseAssoc_ne _ _ _ (hpath ps rfl hne)

/-- Over-approximation of the device-cache keys one notification can
write or delete: the MAC derived from the message's own path property,
the MAC derived from a string path in the first body slot, and the MAC an
Address property in the second body slot would produce. -/
def touchedMacs (m : Option Msg) : List String :=
  match m with
  | none => []
  | some msg =>
      (match msg.path with
       | some s => [String.mk (devicePathToMac s.data)]
       | none => []) ++
      (match msg.body with
       | some (JsVal.arr (p :: rest)) =>
           (match p with
            | JsVal.str s => [String.mk (devicePathToMac s.data)]
            | _ => []) ++
           (match rest with
            | ifc :: _ => addressCandidate ifc
            | [] => [])
       | _ => [])

theorem devicePathToMac_single (c : Char) : devicePathToMac [c] = [] := rfl

theorem addressCandidate_not_obj (v : JsVal) (h : ∀ fields, v ≠ JsVal.obj fields) :
    addressCandidate v = [] := by
  cases v with
  | obj fields => exact absurd rfl (h fields)
  | undef => rfl
  | null => rfl
  | bool b => rfl
  | num n => rfl
  | nan => rfl
  | str s => rfl
  | arr es => rfl
  | buf bs => rfl
  | variantV sig val =>
      simp [addressCandidate, jsGetProp, DEVICE_IFACE, unwrapVariantsJs, jsTruthy]

theorem strCharAt_cases (t : String) (i : Nat) :
    strCharAt t i = JsVal.undef ∨ ∃ c, strCharAt t i = JsVal.str (String.mk [c]) := by
  unfold strCharAt
  cases t.data.get? i with
  | none => exact Or.inl rfl
  | some c => exact Or.inr ⟨c, rfl⟩

theorem dispatchMsg_lookup (st : BzState) (m : Option Msg) (mac : String)
    (h : mac ∉ touchedMacs m) :
    List.lookup mac (dispatchMsg st m).state.devices = List.lookup mac st.devices := by
  cases m with
  | none => rfl
  | some msg =>
      have hbodyfacts :
          (∀ (p : JsVal) (rest : List JsVal), msg.body = some (JsVal.arr (p :: rest)) →
            (∀ s, p = JsVal.str s → mac ∉ [String.mk (devicePathToMac s.data)]) ∧
            (∀ ifc lrest, rest = ifc :: lrest → mac ∉ addressCandidate ifc)) ∧
          (∀ s, msg.path = some s → mac ≠ String.mk (devicePathToMac s.data)) := by
        constructor
        · intro p rest hb
          simp only [touchedMacs, hb, List.mem_append] at h
          push_neg at h
          constructor
          · intro s hp
            subst hp
            simp only [List.mem_append] at h
            intro hmem
            exact h.2.1 hmem
          · intro ifc lrest hr
            subst hr
            simp only [List.mem_append] at h
            intro hmem
            exact h.2.2 hmem
        · intro s hp hcontra
          apply h
          simp only [touchedMacs, hp, List.mem_append]
          exact Or.inl (by simp [hcontra])
      obtain ⟨hbody, hpathfact⟩ := hbodyfacts
      have hpv : ∀ (pv : JsVal × JsVal),
          jsDestructure2 ((msg.body).getD JsVal.undef) = Except.ok pv →
          optTruthyVal msg.body = true →
          (∀ s, pv.1 = JsVal.str s → String.mk (devicePathToMac s.data) ≠ "" →
            mac ≠ String.mk (devicePathToMac s.data)) ∧
          mac ∉ addressCandidate pv.2 := by
        intro pv hdes htr
        cases hb : msg.body with
        | none => rw [hb] at htr; exact absurd htr (by simp [optTruthyVal])
        | some b =>
            rw [hb] at hdes
            cases b with
            | arr es =>
                cases es with
                | nil =>
                    simp only [jsDestructure2, Option.getD] at hdes
                    injection hdes with hd
                    subst hd
                    refine ⟨?_, ?_⟩
                    · intro s hs; exact absurd hs (by simp)
                    · simp [addressCandidate_not_obj JsVal.undef (by intro f hf; cases hf)]
                | cons p rest =>
                    simp only [jsDestructure2, Option.getD] at hdes
                    injection hdes with hd
                    obtain ⟨h1, h2⟩ := hbody p rest (by rw [hb])
                    subst hd
                    refine ⟨?_, ?_⟩
                    · intro s hs hne2 hcontra
                      simp only [List.getD, List.get?, Option.getD] at hs
                      have := h1 s hs
                      simp [hcontra] at this
                    · cases rest with
                      | nil =>
                          simp only [List.getD]
                          simp [addressCandidate_not_obj JsVal.undef (by intro f hf; cases hf)]
                      | cons ifc lrest =>
                          simp only [List.getD]
                          exact h2 ifc lrest rfl
            | str t =>
                simp only [jsDestructure2, Option.getD] at hdes
                injection hdes with hd
                subst hd
                refine ⟨?_, ?_⟩
                · intro s hs hne2
                  rcases strCharAt_cases t 0 with h0 | ⟨c, h0⟩
                  · rw [h0] at hs; exact absurd hs (by simp)
                  · rw [h0] at hs
                    injection hs with hseq
                    subst hseq
                    exact absurd (by simp [devicePathToMac_single]) hne2
                · rcases strCharAt_cases t 1 with h1 | ⟨c, h1⟩ <;> rw [h1]
                  · simp [addressCandidate_not_obj JsVal.undef (by intro f hf; cases hf)]
                  · simp [addressCandidate_not_obj (JsVal.str (String.mk [c]))
                      (by intro f hf; cases hf)]
            | buf bs =>
                simp only [jsDestructure2, Option.getD] at hdes
                injection hdes with hd
                subst hd
                refine ⟨?_, ?_⟩
                · intro s hs
                  cases hg : bs.get? 0 with
                  | none => rw [hg] at hs; exact absurd hs (by simp [Option.elim])
                  | some byte => rw [hg] at hs; exact absurd hs (by simp [Option.elim])
                · cases hg : bs.get? 1 with
                  | none =>
                      simp only [hg, Option.elim]
                      simp [addressCandidate_not_obj JsVal.undef (by intro f hf; cases hf)]
                  | some byte =>
                      simp only [hg, Option.elim]
                      rw [addressCandidate_not_obj _ (by intro f hf; cases hf)]
                      simp
            | undef => exact absurd hdes (by simp [jsDestructure2])
            | null => exact absurd hdes (by simp [jsDestructure2])
            | bool b => exact absurd hdes (by simp [jsDestructure2])
            | num n => exact absurd hdes (by simp [jsDestructure2])
            | nan => exact absurd hdes (by simp [jsDestructure2])
            | obj fields => exact absurd hdes (by simp [jsDestructure2])
            | variantV sig val => exact absurd hdes (by simp [jsDestructure2])
      simp only [dispatchMsg]
      split
      · rfl
      · simp only [dispatchInner]
        split
        · rename_i hcond
          split
          · rfl
          · rename_i pv hdes
            have hf := hpv pv hdes hcond.2.2
            exact onInterfacesAdded_lookup st pv.1 pv.2 mac hf.1 hf.2
        · split
          · rename_i hcond
            split
            · rfl
            · rename_i pv hdes
              have hf := hpv pv hdes hcond.2.2
              exact onInterfacesRemoved_lookup st pv.1 pv.2 mac hf.1
          · split
            · rename_i hcond
              split
              · rfl
              · rename_i triple hdes
                obtain ⟨hiface, hmem, hbodyT, hpathT⟩ := hcond
                have hps : ∃ s, msg.path = some s := by
                  cases hp : msg.path with
                  | none => rw [hp] at hpathT; exact absurd hpathT (by simp [optTruthyStr])
                  | some s => exact ⟨s, rfl⟩
                obtain ⟨s, hs⟩ := hps
                rw [hs]
                exact onPropertiesChanged_lookup st ((some s).getD "") triple.1 triple.2.1 mac
                  (by simpa using hpathfact s hs)
            · rfl

theorem dispatchAll_go (msgs : List (Option Msg)) :
    ∀ (st : BzState) (e : List BzEmit) (c : List String),
    (msgs.foldl (fun acc m =>
        let out := dispatchMsg acc.1 m
        (out.state, acc.2.1 ++ out.emits, acc.2.2 ++ out.caught.toList)) (st, e, c)).1
      = msgs.foldl (fun s m => (dispatchMsg s m).state) st := by
  induction msgs with
  | nil => intro st e c; rfl
  | cons m rest ih =>
      intro st e c
      rw [List.foldl_cons, List.foldl_cons]
      exact ih _ _ _

theorem foldState_lookup (mac : String) (msgs : List (Option Msg)) :
    ∀ st : BzState, (∀ m ∈ msgs, mac ∉ touchedMacs m) →
    List.lookup mac (msgs.foldl (fun s m => (dispatchMsg s m).state) st).devices
      = List.lookup mac st.devices := by
  induction msgs with
  | nil => intro st _; rfl
  | cons m rest ih =>
      intro st h
      rw [List.foldl_cons]
      rw [ih _ (fun m2 hm2 => h m2 (List.mem_cons_of_mem m hm2))]
      exact dispatchMsg_lookup st m mac (h m (List.mem_cons_self m rest))

/-- C6: the control-bus dispatcher never lets an exception escape its own
boundary.  Every notification in a sequence, malformed ones included, is
processed by one guarded dispatch step whose raised error is caught and
returned as logged, so the fold over the whole sequence always proceeds
message by message (second conjunct); and whatever any notification's
processing does, including dying halfway through with an exception, the
cached record of every device that none of the notifications concerns is
left exactly as it was (first conjunct). -/
theorem dispatcher_error_containment (st : BzState) (msgs : List (Option Msg)) (mac : String)
    (h : ∀ m ∈ msgs, mac ∉ touchedMacs m) :
    List.lookup mac (dispatchAll st msgs).1.devices = List.lookup mac st.devices ∧
      (dispatchAll st msgs).1 = msgs.foldl (fun s m => (dispatchMsg s m).state) st := by
  have hfst : (dispatchAll st msgs).1
      = msgs.foldl (fun s m => (dispatchMsg s m).state) st := by
    simpa [dispatchAll] using dispatchAll_go msgs st [] []
  refine ⟨?_, hfst⟩
  rw [hfst]
  exact foldState_lookup mac msgs st h

/-- Witness state for C6: two cached devices and a live manager. -/
def witnessBzState : BzState :=
  { destroyed := false, adapterPath := "/org/bluez/hci0",
    devices := [("AA:AA:AA:AA:AA:AA", []), ("BB:BB:BB:BB:BB:BB", [])],
    notifyPaths := [] }

/-- Witness messages for C6: a malformed object-added notification whose
body is not iterable (its processing raises and is caught), followed by a
well-formed object-removed notification for the second device. -/
def witnessMsgs : List (Option Msg) :=
  [some { iface := some OBJECT_MANAGER_IFACE, member := some "InterfacesAdded",
          path := none, body := some (JsVal.num 5) },
   some { iface := some OBJECT_MANAGER_IFACE, member := some "InterfacesRemoved",
          path := none,
          body := some (JsVal.arr [JsVal.str "/org/bluez/hci0/dev_BB_BB_BB_BB_BB_BB",
            JsVal.arr [JsVal.str DEVICE_IFACE]]) }]

/-- Witness for C6: the malformed notification's error is caught (the
caught-error log is non-empty), the removal of the second device is still
processed, and the first device's cached record is untouched. -/
theorem dispatcher_error_containment_witness :
    (∀ m ∈ witnessMsgs, "AA:AA:AA:AA:AA:AA" ∉ touchedMacs m) ∧
      List.lookup "AA:AA:AA:AA:AA:AA" (dispatchAll witnessBzState witnessMsgs).1.devices
        = List.lookup "AA:AA:AA:AA:AA:AA" witnessBzState.devices ∧
      (dispatchAll witnessBzState witnessMsgs).2.2 ≠ [] ∧
      (List.lookup "BB:BB:BB:BB:BB:BB"
          (dispatchAll witnessBzState witnessMsgs).1.devices).isNone = true := by
  have hm : ∀ m ∈ witnessMsgs, "AA:AA:AA:AA:AA:AA" ∉ touchedMacs m := by decide
  refine ⟨hm, (dispatcher_error_containment witnessBzState witnessMsgs _ hm).1, ?_, ?_⟩
  · decide
  · decide

end IobBluetooth
